import Mathlib

/-!
# img_compressor_go: a shallow embedding of `main.go`

The service is one Go file: configuration loading (`loadConfig`, `getEnv`,
`getEnvAsInt`), MIME filtering (`detectMimeType`, `isAllowedMimeType`), the
`POST /compress` handler registered by `uploadImage`, and the pure transform
`imageProcessingToBuffer`.

Modelling conventions.

* A Go `string` is a Lean `String` (a sequence of Unicode code points, that is,
  a Go string holding valid UTF-8).  A `[]byte` is a `List Nat` of values below 256.
* `int` and `int64` are `Int`; the only place where 64-bit overflow matters is
  `strconv.ParseUint`, which is written with an explicit `% 2 ^ 64`.
* A Go `(value, error)` result is an `Except GoError value`.
* Functions of the Go standard library that the program calls and whose behaviour
  is a short, documented algorithm (`strings.Split`, `strings.TrimSpace`,
  `strconv.ParseInt`, `strconv.Atoi`, `base64.StdEncoding.EncodeToString`) are
  written out.  The image codecs, the content sniffer and the resampling kernel
  are parameters, collected in the structure `Libs`.
* The handler is a function from the request (what the `gin.Context` answers to
  the calls the handler makes) to the log lines written and the way the handler
  ends: a `c.JSON` response or a `panic`.
-/

namespace ImgCompressor

/-! ## Errors -/

deriving instance DecidableEq for Except

/-- The two sentinel errors of `strconv`: `ErrSyntax` and `ErrRange`. -/
inductive NumErrKind
  | invalidSyntax
  | outOfRange
  deriving DecidableEq

/-- Go `error` values met by the program. -/
inductive GoError
  /-- A `*strconv.NumError` with its fields `Func`, `Num`, `Err`. -/
  | numError (Func : String) (Num : String) (Err : NumErrKind)
  /-- An error created by a library, identified by its message. -/
  | errorString (msg : String)
  /-- The value of `fmt.Errorf(msg + ": %w", err)`. -/
  | wrapped (msg : String) (err : GoError)
  deriving DecidableEq

/-! ## `strings` -/

/-- Go `unicode.IsSpace`: the Latin-1 cases are listed one by one, the other
code points are those of the `White_Space` range table. -/
def isSpace (r : Char) : Bool :=
  if r.toNat ≤ 0xFF then
    r = '\t' || r = '\n' || r.toNat = 0x0B || r.toNat = 0x0C || r = '\r' || r = ' '
      || r.toNat = 0x85 || r.toNat = 0xA0
  else
    r.toNat = 0x1680 || (0x2000 ≤ r.toNat && r.toNat ≤ 0x200A) || r.toNat = 0x2028
      || r.toNat = 0x2029 || r.toNat = 0x202F || r.toNat = 0x205F || r.toNat = 0x3000

/-- Go `strings.Split(s, sep)` for a separator of one character, as in the call
`strings.Split(mimeType, ";")`: the pieces of `s` between the occurrences of
`sep`, in order; one more piece than there are occurrences. -/
def Split (s : List Char) (sep : Char) : List (List Char) :=
  match s with
  | [] => [[]]
  | c :: cs =>
    if c = sep then [] :: Split cs sep
    else
      match Split cs sep with
      | [] => [[c]]
      | p :: ps => (c :: p) :: ps

/-- Go `strings.TrimSpace`: the string without its leading and trailing white
space, white space being `unicode.IsSpace`. -/
def TrimSpace (s : List Char) : List Char :=
  ((s.dropWhile isSpace).reverse.dropWhile isSpace).reverse

/-! ## `strconv` -/

/-- The digit value `strconv.ParseUint` gives a byte: decimal digits, then
letters (in either case) from ten on; `none` for any other byte. -/
def digitVal (c : Char) : Option Nat :=
  if '0'.toNat ≤ c.toNat ∧ c.toNat ≤ '9'.toNat then some (c.toNat - '0'.toNat)
  else if 'a'.toNat ≤ c.toNat ∧ c.toNat ≤ 'z'.toNat then some (c.toNat - 'a'.toNat + 10)
  else if 'A'.toNat ≤ c.toNat ∧ c.toNat ≤ 'Z'.toNat then some (c.toNat - 'A'.toNat + 10)
  else none

/-- The largest `uint64`. -/
def maxUint64 : Nat := 2 ^ 64 - 1

/-- The loop of `strconv.ParseUint(s, 10, 64)` with accumulator `n`: a byte that
is not a digit below the base is a syntax error; `n >= cutoff` (the product
`n*10` would overflow) and a wrapped sum are range errors. -/
def parseUintLoop (n : Nat) : List Char → Except NumErrKind Nat
  | [] => .ok n
  | c :: cs =>
    match digitVal c with
    | none => .error .invalidSyntax
    | some d =>
      if d ≥ 10 then .error .invalidSyntax
      else if n ≥ maxUint64 / 10 + 1 then .error .outOfRange
      else
        let n10 := n * 10
        let n1 := (n10 + d) % 2 ^ 64
        if n1 < n10 ∨ n1 > maxUint64 then .error .outOfRange
        else parseUintLoop n1 cs

/-- Go `strconv.ParseUint(s, 10, 64)`. -/
def ParseUint (s : List Char) : Except NumErrKind Nat :=
  if s = [] then .error .invalidSyntax else parseUintLoop 0 s

/-- The body of `strconv.ParseInt(s, 10, 64)`, with the kind of the error only:
an optional sign, then `ParseUint`, then the check against `1 << 63`. -/
def parseIntKind (s : List Char) : Except NumErrKind Int :=
  match s with
  | [] => .error .invalidSyntax
  | c :: cs =>
    let neg := decide (c = '-')
    let digits := if c = '+' ∨ c = '-' then cs else c :: cs
    match ParseUint digits with
    | .error .invalidSyntax => .error .invalidSyntax
    | .error .outOfRange => .error .outOfRange
    | .ok un =>
      if !neg && decide (un ≥ 2 ^ 63) then .error .outOfRange
      else if neg && decide (un > 2 ^ 63) then .error .outOfRange
      else .ok (if neg then -(un : Int) else (un : Int))

/-- Go `strconv.ParseInt(s, 10, 64)`. -/
def ParseInt (s : String) : Except GoError Int :=
  match parseIntKind s.data with
  | .ok n => .ok n
  | .error k => .error (.numError "ParseInt" s k)

/-- Go `strconv.Atoi(s)` on a platform whose `int` has 64 bits: the result of
`ParseInt(s, 10, 0)`, the error naming `Atoi`. -/
def Atoi (s : String) : Except GoError Int :=
  match parseIntKind s.data with
  | .ok n => .ok n
  | .error k => .error (.numError "Atoi" s k)

/-! ## `encoding/base64` -/

/-- The alphabet of `base64.StdEncoding`. -/
def encodeStd : List Char :=
  "ABCDEFGHIJKLMNOPQRSTUVWXYZabcdefghijklmnopqrstuvwxyz0123456789+/".data

/-- The character of the standard alphabet for the six low bits of `v`. -/
def encodeChar (v : Nat) : Char := encodeStd.getD (v % 64) 'A'

/-- Go `base64.StdEncoding.Encode`: three bytes give four characters; a rest of
one or two bytes is padded with `=`. -/
def encodeBytes : List Nat → List Char
  | a :: b :: c :: rest =>
    let val := (a % 256) * 65536 + (b % 256) * 256 + c % 256
    encodeChar (val / 262144) :: encodeChar (val / 4096) :: encodeChar (val / 64)
      :: encodeChar val :: encodeBytes rest
  | [a, b] =>
    let val := (a % 256) * 65536 + (b % 256) * 256
    [encodeChar (val / 262144), encodeChar (val / 4096), encodeChar (val / 64), '=']
  | [a] =>
    let val := (a % 256) * 65536
    [encodeChar (val / 262144), encodeChar (val / 4096), '=', '=']
  | [] => []

/-- Go `base64.StdEncoding.EncodeToString`. -/
def EncodeToString (src : List Nat) : String := String.mk (encodeBytes src)

/-! ## Configuration (`main.go` lines 23-69) -/

/-- The struct `Config`. -/
structure Config where
  Port : String
  Host : String
  MaxFileSize : Int
  DefaultQuality : Int
  AllowedOrigin : String
  AllowedMimeTypes : List String
  deriving DecidableEq

/-- The function `getEnv`; `getenv` is `os.Getenv`, which answers the empty
string for a variable that is not set. -/
def getEnv (getenv : String → String) (key defaultVal : String) : String :=
  let value := getenv key
  if value ≠ "" then value else defaultVal

/-- The function `getEnvAsInt`. -/
def getEnvAsInt (getenv : String → String) (key : String) (defaultVal : Int) : Int :=
  let value := getenv key
  if value ≠ "" then
    match ParseInt value with
    | .ok intVal => intVal
    | .error _ => defaultVal
  else defaultVal

/-- The function `loadConfig`; `getenv` is `os.Getenv` as the calls in `getEnv`
and `getEnvAsInt` see it, that is, once `godotenv.Load` has run. -/
def loadConfig (getenv : String → String) : Config :=
  { Port := getEnv getenv "PORT" "7070"
    Host := getEnv getenv "HOST" "0.0.0.0"
    MaxFileSize := getEnvAsInt getenv "MAX_FILE_SIZE" (10 * 1024 * 1024)
    DefaultQuality := getEnvAsInt getenv "DEFAULT_QUALITY" 80
    AllowedOrigin := getEnv getenv "ALLOW_ORIGIN" "http://localhost:8080"
    AllowedMimeTypes := ["image/jpeg", "image/png", "image/jpg", "image/webp", "image/gif"] }

/-! ## MIME filtering (`main.go` lines 71-85) -/

/-- The loop of `isAllowedMimeType` over `allowedTypes`. -/
def allowedLoop (normalizedType : String) : List String → Bool
  | [] => false
  | allowed :: rest => if normalizedType = allowed then true else allowedLoop normalizedType rest

/-- The function `isAllowedMimeType`.  `strings.Split` never answers an empty
slice for a non-empty separator, so the index `[0]` is always in range. -/
def isAllowedMimeType (mimeType : String) (allowedTypes : List String) : Bool :=
  let normalizedType := String.mk ((Split mimeType.data ';').headD [])
  let normalizedType := String.mk (TrimSpace normalizedType.data)
  allowedLoop normalizedType allowedTypes

/-! ## External libraries -/

/-- A decoded raster: the width and height of its bounds (`Bounds().Dx()`,
`Bounds().Dy()`) and its pixel data, which the model does not interpret. -/
structure Image where
  Dx : Int
  Dy : Int
  Pix : List Nat
  deriving DecidableEq

/-- The struct `jpeg.Options`. -/
structure Options where
  Quality : Int
  deriving DecidableEq

/-- The library functions the program calls and the model leaves open:
`http.DetectContentType`, `image.Decode` (with the formats the imports
register), the pixel data `imaging.Resize` computes with the Lanczos filter for
given target dimensions, and `jpeg.Encode` (the bytes it writes, or its error). -/
structure Libs where
  DetectContentType : List Nat → String
  Decode : List Nat → Except GoError Image
  resample : Image → Int → Int → List Nat
  Encode : Image → Options → Except GoError (List Nat)

/-- The function `detectMimeType`. -/
def detectMimeType (L : Libs) (buffer : List Nat) : String :=
  L.DetectContentType buffer

/-- The value `int(math.Max(1.0, math.Floor(a/b + 0.5)))` of `imaging.Resize` for
positive `b`, in exact arithmetic. -/
def scaledSide (a b : Int) : Int := max 1 ((2 * a + b) / (2 * b))

/-- Modelled from the spec: `imaging.Resize(img, width, height, filter)` of the
third-party package `github.com/disintegration/imaging`, whose code is not
part of the repository.  Spec section 4.2, step 2: the image is scaled to the target width
preserving the aspect ratio, the height computed proportionally, and a source that
is already narrower than the target goes through the same resize.  The
dimension rules are those of the package: a negative target, two zero targets or
an empty source give the empty image; a zero target side is computed from the
other one, at least one pixel. -/
def Resize (L : Libs) (img : Image) (width height : Int) : Image :=
  if width < 0 ∨ height < 0 then ⟨0, 0, []⟩
  else if width = 0 ∧ height = 0 then ⟨0, 0, []⟩
  else if img.Dx ≤ 0 ∨ img.Dy ≤ 0 then ⟨0, 0, []⟩
  else
    let dstW := if width = 0 then scaledSide (height * img.Dx) img.Dy else width
    let dstH := if height = 0 then scaledSide (dstW * img.Dy) img.Dx else height
    ⟨dstW, dstH, L.resample img dstW dstH⟩

/-! ## The transform (`main.go` lines 173-189) -/

/-- The function `imageProcessingToBuffer`. -/
def imageProcessingToBuffer (L : Libs) (buffer : List Nat) (quality : Int) :
    Except GoError (List Nat) :=
  match L.Decode buffer with
  | .error err => .error (.wrapped "failed to decode image" err)
  | .ok img =>
    let processed := Resize L img 800 0
    match L.Encode processed { Quality := quality } with
    | .error err => .error (.wrapped "failed to encode image" err)
    | .ok buf => .ok buf

/-! ## The handler of `POST /compress` (`main.go` lines 102-164) -/

/-- An open uploaded file: what `io.ReadAll(file)` answers. -/
structure File where
  ReadAll : Except GoError (List Nat)

/-- A `*multipart.FileHeader`: the file name and content type the client
declared for the part, the size of the part, and what `Open()` answers. -/
structure FileHeader where
  Filename : String
  ContentType : String
  Size : Int
  Open : Except GoError File

/-- A parsed `*multipart.Form`, as far as the handler reads it: for each file
field, in the order the `range` loop visits them, its key and its number of files. -/
structure Form where
  File : List (String × Nat)

/-- What the `gin.Context` of a request answers to the calls of the handler:
`c.MultipartForm()`, `c.FormFile(name)` and `c.Request.FormValue(key)`. -/
structure Context where
  MultipartForm : Except GoError Form
  FormFile : String → Except GoError FileHeader
  FormValue : String → String

/-- A value of a `gin.H` map in the responses of the handler. -/
inductive JValue
  | str (s : String)
  | strs (l : List String)
  deriving DecidableEq

/-- The lines the handler writes with `log.Println` and `log.Printf`. -/
inductive LogLine
  | multipartParseError (err : GoError)
  | gotField (key : String) (files : Nat)
  | detectedMimeType (mimeType : String)
  deriving DecidableEq

/-- How a run of the handler ends: with `c.JSON(code, obj)` followed by a
return (the `gin.H` literal is kept as the list of its entries, in the order
the source writes them), or with `panic(err)`. -/
inductive Outcome
  | JSON (code : Nat) (obj : List (String × JValue))
  | panicked (err : GoError)
  deriving DecidableEq

/-- A run of the handler: the log lines, in order, and the outcome. -/
structure Result where
  logs : List LogLine
  outcome : Outcome
  deriving DecidableEq

/-- The constant `http.StatusBadRequest`. -/
def StatusBadRequest : Nat := 400

/-- The constant `http.StatusInternalServerError`. -/
def StatusInternalServerError : Nat := 500

/-- Lines 103-110: the diagnostic logging of the multipart form. -/
def logForm (c : Context) : List LogLine :=
  match c.MultipartForm with
  | .error err => [.multipartParseError err]
  | .ok form => form.File.map (fun kf => .gotField kf.1 kf.2)

/-- Lines 145-151: the quality the handler passes to the transform, or the
error it panics with. -/
def requestQuality (config : Config) (c : Context) : Except GoError Int :=
  if c.FormValue "quality" ≠ "" then Atoi (c.FormValue "quality")
  else .ok config.DefaultQuality

/-- The handler that `uploadImage` registers for `POST /compress`. -/
def compressHandler (L : Libs) (config : Config) (c : Context) : Result :=
  let logs := logForm c
  match c.FormFile "image" with
  | .error _ => ⟨logs, .JSON StatusBadRequest [("error", .str "No file uploaded")]⟩
  | .ok fileheader =>
    match fileheader.Open with
    | .error _ =>
      ⟨logs, .JSON StatusInternalServerError [("error", .str "Failed to open file")]⟩
    | .ok file =>
      if fileheader.Size > config.MaxFileSize then
        ⟨logs, .JSON StatusBadRequest [("error", .str "File too large")]⟩
      else
        match file.ReadAll with
        | .error _ =>
          ⟨logs, .JSON StatusInternalServerError [("error", .str "Failed to read file")]⟩
        | .ok buffer =>
          let detectedMimeType := detectMimeType L buffer
          let logs := logs ++ [.detectedMimeType detectedMimeType]
          if !isAllowedMimeType detectedMimeType config.AllowedMimeTypes then
            ⟨logs, .JSON StatusBadRequest
              [("error", .str "Unsupported file type"),
               ("detected_type", .str detectedMimeType),
               ("allowed_types", .strs config.AllowedMimeTypes)]⟩
          else
            match requestQuality config c with
            | .error err => ⟨logs, .panicked err⟩
            | .ok quality =>
              match imageProcessingToBuffer L buffer quality with
              | .error err => ⟨logs, .panicked err⟩
              | .ok imgBuffer =>
                let base64Image := EncodeToString imgBuffer
                ⟨logs, .JSON 200 [("image", .str base64Image), ("extension", .str "jpeg")]⟩

/-- What the client is sent: a status and, when a handler wrote one, a JSON body. -/
structure Response where
  status : Nat
  body : Option (List (String × JValue))
  deriving DecidableEq

/-- The routes `uploadImage` registers: `POST /compress` and `GET /health`. -/
inductive Route
  | compress
  | health
  deriving DecidableEq

/-- The function `uploadImage`: the engine it builds, as the response the
engine sends on each route.  The engine runs the handlers under
`gin.Recovery()` (`gin.Default()` on line 89 and `r.Use(gin.Recovery())` on
line 99): what a handler wrote with `c.JSON` is sent as it is, and a panic of a
handler is recovered and answered with `c.AbortWithStatus(500)`, a status
without a body.  The CORS and logging middleware are left out. -/
def uploadImage (L : Libs) (config : Config) : Route → Context → Response
  | .compress, c =>
    match (compressHandler L config c).outcome with
    | .JSON code obj => ⟨code, some obj⟩
    | .panicked _ => ⟨StatusInternalServerError, none⟩
  | .health, _ => ⟨200, some [("status", .str "ok")]⟩

/-! ## Concrete libraries and requests

An instance of `Libs` and a few requests on which the definitions above can be
evaluated.  The instance follows the real libraries on the points the
evaluations touch: the signatures `http.DetectContentType` looks for in PNG,
JPEG and GIF data and its fallback to text or binary, the place of the width and
height in the `IHDR` chunk of a PNG file, and the size limit and quality clamp of
`jpeg.Encode`.  It does not decompress or compress pixel data, which it keeps
as it finds it. -/

/-- The eight bytes every PNG file starts with. -/
def pngSignature : List Nat := [0x89, 0x50, 0x4E, 0x47, 0x0D, 0x0A, 0x1A, 0x0A]

/-- The unsigned number a list of bytes is in big-endian order. -/
def beUint (bs : List Nat) : Nat := bs.foldl (fun acc b => acc * 256 + b % 256) 0

/-- The four bytes of `n` as a 32-bit number in big-endian order. -/
def be32 (n : Nat) : List Nat := [n / 16777216 % 256, n / 65536 % 256, n / 256 % 256, n % 256]

/-- The bytes that `http.DetectContentType` counts as binary data. -/
def isBinaryByte (b : Nat) : Bool :=
  b ≤ 0x08 || b = 0x0B || (0x0E ≤ b && b ≤ 0x1A) || (0x1C ≤ b && b ≤ 0x1F)

/-- Content sniffing restricted to the PNG, JPEG and GIF signatures, with the
fallback of `http.DetectContentType` to plain text or to binary data. -/
def sampleDetect (data : List Nat) : String :=
  if data.take 8 = pngSignature then "image/png"
  else if data.take 3 = [0xFF, 0xD8, 0xFF] then "image/jpeg"
  else if data.take 6 = [0x47, 0x49, 0x46, 0x38, 0x37, 0x61] then "image/gif"
  else if data.take 6 = [0x47, 0x49, 0x46, 0x38, 0x39, 0x61] then "image/gif"
  else if data.any isBinaryByte then "application/octet-stream"
  else "text/plain; charset=utf-8"

/-- Decoding restricted to reading a PNG header: the signature, then the
`IHDR` chunk with the width at bytes 16-19 and the height at bytes 20-23. -/
def sampleDecode (data : List Nat) : Except GoError Image :=
  if data.take 8 ≠ pngSignature then .error (.errorString "image: unknown format")
  else if data.length < 24 then .error (.errorString "unexpected EOF")
  else
    let w := beUint ((data.drop 16).take 4)
    let h := beUint ((data.drop 20).take 4)
    if w = 0 ∨ h = 0 then .error (.errorString "png: invalid format: invalid image size")
    else .ok ⟨w, h, data.drop 24⟩

/-- The quality `jpeg.Encode` works with: the option clamped into 1..100. -/
def clampQuality (q : Int) : Int := if q < 1 then 1 else if q > 100 then 100 else q

/-- Encoding restricted to a header: `jpeg.Encode` refuses an image with a side
of 65536 pixels or more; the output starts with the SOI marker and carries the
height, the width and the clamped quality, then the pixel data and the EOI marker. -/
def sampleEncode (img : Image) (o : Options) : Except GoError (List Nat) :=
  if img.Dx ≥ 65536 ∨ img.Dy ≥ 65536 then
    .error (.errorString "jpeg: image is too large to encode")
  else
    .ok ([0xFF, 0xD8] ++ be32 img.Dy.toNat ++ be32 img.Dx.toNat
      ++ [(clampQuality o.Quality).toNat] ++ img.Pix ++ [0xFF, 0xD9])

/-- The concrete instance of the library functions. -/
def sampleLibs : Libs :=
  { DetectContentType := sampleDetect
    Decode := sampleDecode
    resample := fun img _ _ => img.Pix
    Encode := sampleEncode }

/-- The instance `sampleLibs` with an encoder that writes nothing but the
`Quality` option it is called with, as two bytes in big-endian order. -/
def echoLibs : Libs :=
  { sampleLibs with
    Encode := fun _ o => .ok [o.Quality.toNat / 256 % 256, o.Quality.toNat % 256] }

/-- The configuration `loadConfig` answers in an environment with no variable set. -/
def defaultConfig : Config := loadConfig (fun _ => "")

/-- The start of a PNG file of the given width and height: signature and
`IHDR` chunk up to the height. -/
def pngHeader (w h : Nat) : List Nat :=
  pngSignature ++ [0, 0, 0, 13, 0x49, 0x48, 0x44, 0x52] ++ be32 w ++ be32 h

/-- An uploaded part named `upload.jpg`, declared `image/jpeg` by the client,
with the given bytes; its size is the number of bytes. -/
def partOf (data : List Nat) : FileHeader :=
  { Filename := "upload.jpg"
    ContentType := "image/jpeg"
    Size := data.length
    Open := .ok { ReadAll := .ok data } }

/-- A request with one file in the field `image` and the given `quality` field. -/
def requestWith (part : FileHeader) (quality : String) : Context :=
  { MultipartForm := .ok { File := [("image", 1)] }
    FormFile := fun name =>
      if name = "image" then .ok part else .error (.errorString "http: no such file")
    FormValue := fun key => if key = "quality" then quality else "" }

/-- A request with no file field at all, whose multipart form fails to parse. -/
def requestWithoutFile (quality : String) : Context :=
  { MultipartForm := .error (.errorString "request Content-Type isn't multipart/form-data")
    FormFile := fun _ => .error (.errorString "request Content-Type isn't multipart/form-data")
    FormValue := fun key => if key = "quality" then quality else "" }

/-- The bytes of the text `hello`. -/
def helloBytes : List Nat := [0x68, 0x65, 0x6C, 0x6C, 0x6F]

/-! ## The wording of the claims about strings

Predicates that say in the words of the specification what `isAllowedMimeType`
and `getEnvAsInt` compute; the theorems compare them with the definitions above. -/

/-- `p` is the part of `s` before its first `;`, and the whole of `s` when `s`
has no `;`. -/
def IsPartBeforeSemicolon (s p : List Char) : Prop :=
  ';' ∉ p ∧ (s = p ∨ ∃ rest, s = p ++ ';' :: rest)

/-- `t` is `u` with its leading and trailing white space removed: `u` is `t`
between two runs of white space, and `t` neither starts nor ends with white space. -/
def IsTrimmed (u t : List Char) : Prop :=
  ∃ l r, u = l ++ t ++ r ∧ (∀ c ∈ l, isSpace c = true) ∧ (∀ c ∈ r, isSpace c = true)
    ∧ (∀ c, t.head? = some c → isSpace c = false)
    ∧ (∀ c, t.getLast? = some c → isSpace c = false)

/-- A decimal digit, `0` to `9`. -/
def isDecimalDigit (c : Char) : Bool := decide (48 ≤ c.toNat ∧ c.toNat ≤ 57)

/-- The number that the digits `ds` denote in base 10 when they follow digits
that denote `n`. -/
def decimalFrom (n : Nat) (ds : List Char) : Nat :=
  ds.foldl (fun acc c => acc * 10 + (c.toNat - 48)) n

/-- The string `s` is a base-10 integer that fits in 64 bits, and `n` is the
integer it denotes: an optional sign `+` or `-`, then one decimal digit or more,
with a value from `-2^63` to `2^63 - 1`. -/
def IsBase10Int64 (s : String) (n : Int) : Prop :=
  ∃ sign digits, s.data = sign ++ digits
    ∧ (sign = [] ∨ sign = ['+'] ∨ sign = ['-'])
    ∧ digits ≠ [] ∧ (∀ c ∈ digits, isDecimalDigit c = true)
    ∧ n = (if sign = ['-'] then -(decimalFrom 0 digits : Int) else (decimalFrom 0 digits : Int))
    ∧ -(2 : Int) ^ 63 ≤ n ∧ n < (2 : Int) ^ 63

end ImgCompressor

/-! # Theorems -/

namespace ImgCompressor

/-! ## The handler -/

/-- The handler on a request that passes the file, size and type checks: the
outcome is decided by the quality parsing and the transform. -/
theorem compressHandler_of_accepted (L : Libs) (config : Config) (c : Context)
    (fileheader : FileHeader) (file : File) (buffer : List Nat)
    (hfile : c.FormFile "image" = .ok fileheader) (hopen : fileheader.Open = .ok file)
    (hsize : ¬ fileheader.Size > config.MaxFileSize) (hread : file.ReadAll = .ok buffer)
    (hmime : isAllowedMimeType (detectMimeType L buffer) config.AllowedMimeTypes = true) :
    (compressHandler L config c).outcome =
      match requestQuality config c with
      | .error err => .panicked err
      | .ok quality =>
        match imageProcessingToBuffer L buffer quality with
        | .error err => .panicked err
        | .ok imgBuffer =>
          .JSON 200 [("image", .str (EncodeToString imgBuffer)), ("extension", .str "jpeg")] := by
  simp only [compressHandler, hfile, hopen, hread, hmime, if_neg hsize]
  cases hq : requestQuality config c with
  | error err => simp
  | ok quality =>
    cases hp : imageProcessingToBuffer L buffer quality with
    | error err => simp [hp]
    | ok imgBuffer => simp [hp]

/-- C2: when the `image` file field is present and can be opened, the handler
answers 400 with the error "File too large" exactly when the size of the file is
strictly greater than `config.MaxFileSize`, whatever the bytes of the file (what
`ReadAll` answers) and whatever the `quality` field are; a file of exactly
`MaxFileSize` bytes is not refused for its size. -/
theorem C2_file_too_large_iff (L : Libs) (config : Config) (c : Context)
    (fileheader : FileHeader) (file : File)
    (hfile : c.FormFile "image" = .ok fileheader) (hopen : fileheader.Open = .ok file) :
    (compressHandler L config c).outcome
        = .JSON 400 [("error", .str "File too large")]
      ↔ fileheader.Size > config.MaxFileSize := by
  constructor
  · intro h
    by_contra hsize
    simp only [compressHandler, hfile, hopen, if_neg hsize] at h
    cases hread : file.ReadAll with
    | error err => simp [hread, StatusInternalServerError] at h
    | ok buffer =>
      simp only [hread] at h
      cases hmime : isAllowedMimeType (detectMimeType L buffer) config.AllowedMimeTypes with
      | false => simp [hmime] at h
      | true =>
        simp only [hmime] at h
        cases hq : requestQuality config c with
        | error err => simp [hq] at h
        | ok quality =>
          simp only [hq] at h
          cases hp : imageProcessingToBuffer L buffer quality with
          | error err => simp [hp] at h
          | ok imgBuffer => simp [hp] at h
  · intro hsize
    simp [compressHandler, hfile, hopen, hsize, StatusBadRequest]

/-- C2 at a concrete request: with a limit of four bytes, the five bytes of
`hello` are refused for their size. -/
theorem C2_file_too_large_witness :
    (compressHandler sampleLibs { defaultConfig with MaxFileSize := 4 }
        (requestWith (partOf helloBytes) "abc")).outcome
      = .JSON 400 [("error", .str "File too large")] :=
  (C2_file_too_large_iff sampleLibs { defaultConfig with MaxFileSize := 4 }
    (requestWith (partOf helloBytes) "abc") (partOf helloBytes) { ReadAll := .ok helloBytes }
    rfl rfl).mpr (by decide)

/-- A request that passes the file, size and type checks and whose `quality`
field is not empty and does not parse as an integer: the handler panics with the
error of `strconv.Atoi`; it writes no response of its own. -/
theorem compressHandler_of_bad_quality (L : Libs) (config : Config) (c : Context)
    (fileheader : FileHeader) (file : File) (buffer : List Nat) (err : GoError)
    (hfile : c.FormFile "image" = .ok fileheader) (hopen : fileheader.Open = .ok file)
    (hsize : ¬ fileheader.Size > config.MaxFileSize) (hread : file.ReadAll = .ok buffer)
    (hmime : isAllowedMimeType (detectMimeType L buffer) config.AllowedMimeTypes = true)
    (hquality : c.FormValue "quality" ≠ "")
    (hparse : Atoi (c.FormValue "quality") = .error err) :
    (compressHandler L config c).outcome = .panicked err := by
  rw [compressHandler_of_accepted L config c fileheader file buffer hfile hopen hsize hread hmime]
  simp [requestQuality, hquality, hparse]

/-- C1 (the code at the failing input): for an accepted PNG upload with the
`quality` field "abc" the handler ends in `panic(err)` with the syntax error of
`strconv.Atoi`, and the client is sent the status 500 without a body, not a
400 response with a JSON body. -/
theorem C1_quality_abc_panics :
    (compressHandler sampleLibs defaultConfig
        (requestWith (partOf (pngHeader 400 300)) "abc")).outcome
        = .panicked (.numError "Atoi" "abc" .invalidSyntax)
      ∧ uploadImage sampleLibs defaultConfig .compress
          (requestWith (partOf (pngHeader 400 300)) "abc")
        = ⟨500, none⟩ :=
  ⟨compressHandler_of_bad_quality sampleLibs defaultConfig
    (requestWith (partOf (pngHeader 400 300)) "abc") (partOf (pngHeader 400 300))
    { ReadAll := .ok (pngHeader 400 300) } (pngHeader 400 300) _
    rfl rfl (by decide) rfl (by decide) (by decide) (by decide), by decide⟩

/-- C3: when the file is present, readable and within the size limit and the
type sniffed from its bytes is not allowed, the handler answers 400 with a
non-empty `error`, `detected_type` equal to the sniffed type and `allowed_types`
equal to the configured list; a request that differs in the content type and
file name the client declared and in its form values gets the same response. -/
theorem C3_unsupported_type_response (L : Libs) (config : Config) (c : Context)
    (fileheader : FileHeader) (file : File) (buffer : List Nat)
    (hfile : c.FormFile "image" = .ok fileheader) (hopen : fileheader.Open = .ok file)
    (hsize : ¬ fileheader.Size > config.MaxFileSize) (hread : file.ReadAll = .ok buffer)
    (hmime : isAllowedMimeType (detectMimeType L buffer) config.AllowedMimeTypes = false) :
    (compressHandler L config c).outcome
        = .JSON 400 [("error", .str "Unsupported file type"),
                     ("detected_type", .str (detectMimeType L buffer)),
                     ("allowed_types", .strs config.AllowedMimeTypes)]
      ∧ "Unsupported file type" ≠ ""
      ∧ ∀ (c2 : Context) (declaredType declaredName : String),
          c2.FormFile "image"
              = .ok { fileheader with ContentType := declaredType, Filename := declaredName } →
          (compressHandler L config c2).outcome = (compressHandler L config c).outcome := by
  have key : ∀ (c1 : Context) (fh : FileHeader), c1.FormFile "image" = .ok fh →
      fh.Open = .ok file → ¬ fh.Size > config.MaxFileSize →
      (compressHandler L config c1).outcome
        = .JSON 400 [("error", .str "Unsupported file type"),
                     ("detected_type", .str (detectMimeType L buffer)),
                     ("allowed_types", .strs config.AllowedMimeTypes)] := by
    intro c1 fh h1 h2 h3
    simp [compressHandler, h1, h2, h3, hread, hmime, StatusBadRequest]
  refine ⟨key c fileheader hfile hopen hsize, by decide, ?_⟩
  intro c2 declaredType declaredName h2
  rw [key c fileheader hfile hopen hsize]
  exact key c2 _ h2 hopen hsize

/-- C3 at a concrete request: the text `hello`, uploaded as `upload.jpg` with
the declared type `image/jpeg`, is sniffed as plain text and refused. -/
theorem C3_unsupported_type_witness :
    (compressHandler sampleLibs defaultConfig (requestWith (partOf helloBytes) "abc")).outcome
      = .JSON 400 [("error", .str "Unsupported file type"),
                   ("detected_type", .str "text/plain; charset=utf-8"),
                   ("allowed_types",
                    .strs ["image/jpeg", "image/png", "image/jpg", "image/webp", "image/gif"])] :=
  (C3_unsupported_type_response sampleLibs defaultConfig (requestWith (partOf helloBytes) "abc")
    (partOf helloBytes) { ReadAll := .ok helloBytes } helloBytes
    rfl rfl (by decide) rfl (by decide)).1

/-- C4: when the request carries no `image` file (`c.FormFile("image")` answers
an error), the handler answers 400 with the body `{"error": "No file uploaded"}`,
whatever the form values are and whether or not the parse of the multipart form
for the log succeeded; all it logs is the outcome of that parse. -/
theorem C4_no_file_uploaded (L : Libs) (config : Config) (c : Context) (err : GoError)
    (hfile : c.FormFile "image" = .error err) :
    (compressHandler L config c).outcome = .JSON 400 [("error", .str "No file uploaded")]
      ∧ (compressHandler L config c).logs = logForm c := by
  simp [compressHandler, hfile, StatusBadRequest]

/-- C4 at a concrete request: no file field, a multipart form that fails to
parse, and a `quality` field that is not a number. -/
theorem C4_no_file_uploaded_witness :
    (compressHandler sampleLibs defaultConfig (requestWithoutFile "abc")).outcome
        = .JSON 400 [("error", .str "No file uploaded")]
      ∧ (compressHandler sampleLibs defaultConfig (requestWithoutFile "abc")).logs
        = [.multipartParseError
            (.errorString "request Content-Type isn't multipart/form-data")] :=
  C4_no_file_uploaded sampleLibs defaultConfig (requestWithoutFile "abc") _ rfl

/-- C5: when the request passes all the checks, `q` is `config.DefaultQuality`
for an absent or empty `quality` field and the integer parsed from the field
otherwise, and `imageProcessingToBuffer` answers the bytes `imgBuffer` for the
uploaded bytes and `q`, the handler answers 200 with exactly the fields `image`,
the standard base64 encoding of `imgBuffer`, and `extension`, the text `jpeg`. -/
theorem C5_success_response (L : Libs) (config : Config) (c : Context)
    (fileheader : FileHeader) (file : File) (buffer : List Nat) (q : Int)
    (imgBuffer : List Nat)
    (hfile : c.FormFile "image" = .ok fileheader) (hopen : fileheader.Open = .ok file)
    (hsize : ¬ fileheader.Size > config.MaxFileSize) (hread : file.ReadAll = .ok buffer)
    (hmime : isAllowedMimeType (detectMimeType L buffer) config.AllowedMimeTypes = true)
    (hq : (c.FormValue "quality" = "" ∧ q = config.DefaultQuality)
        ∨ (c.FormValue "quality" ≠ "" ∧ Atoi (c.FormValue "quality") = .ok q))
    (hproc : imageProcessingToBuffer L buffer q = .ok imgBuffer) :
    (compressHandler L config c).outcome
      = .JSON 200 [("image", .str (EncodeToString imgBuffer)), ("extension", .str "jpeg")] := by
  rw [compressHandler_of_accepted L config c fileheader file buffer hfile hopen hsize hread hmime]
  have hquality : requestQuality config c = .ok q := by
    rcases hq with ⟨h1, h2⟩ | ⟨h1, h2⟩
    · simp [requestQuality, h1, h2]
    · simp [requestQuality, h1, h2]
  simp [hquality, hproc]

/-- C5 at a concrete request: a PNG header of 400 by 300 pixels with the
`quality` field "75". -/
theorem C5_success_witness :
    (compressHandler sampleLibs defaultConfig
        (requestWith (partOf (pngHeader 400 300)) "75")).outcome
      = .JSON 200 [("image", .str "/9gAAAJYAAADIEv/2Q=="), ("extension", .str "jpeg")] :=
  C5_success_response sampleLibs defaultConfig (requestWith (partOf (pngHeader 400 300)) "75")
    (partOf (pngHeader 400 300)) { ReadAll := .ok (pngHeader 400 300) } (pngHeader 400 300) 75
    [0xFF, 0xD8, 0, 0, 2, 88, 0, 0, 3, 32, 75, 0xFF, 0xD9]
    rfl rfl (by decide) rfl (by decide) (Or.inr ⟨by decide, by decide⟩) (by decide)

/-- A request that passes the file, size, type and quality checks and whose
bytes the transform fails on: the handler panics with the error of
`imageProcessingToBuffer`; it writes no response of its own. -/
theorem compressHandler_of_failed_transform (L : Libs) (config : Config) (c : Context)
    (fileheader : FileHeader) (file : File) (buffer : List Nat) (q : Int) (err : GoError)
    (hfile : c.FormFile "image" = .ok fileheader) (hopen : fileheader.Open = .ok file)
    (hsize : ¬ fileheader.Size > config.MaxFileSize) (hread : file.ReadAll = .ok buffer)
    (hmime : isAllowedMimeType (detectMimeType L buffer) config.AllowedMimeTypes = true)
    (hquality : requestQuality config c = .ok q)
    (hproc : imageProcessingToBuffer L buffer q = .error err) :
    (compressHandler L config c).outcome = .panicked err := by
  rw [compressHandler_of_accepted L config c fileheader file buffer hfile hopen hsize hread hmime]
  simp [hquality, hproc]

/-- C6 (the code at the failing input): for an upload that holds the PNG
signature and nothing else, sniffed as `image/png` and within the size limit,
`imageProcessingToBuffer` answers an error and the handler ends in `panic(err)`;
the client is sent the status 500 without a body, not a JSON error payload.  The
same happens when the encoder fails, as for a PNG header of 1 by 100 pixels, whose
resized image is 80000 pixels high. -/
theorem C6_undecodable_upload_panics :
    imageProcessingToBuffer sampleLibs pngSignature 80
        = .error (.wrapped "failed to decode image" (.errorString "unexpected EOF"))
      ∧ (compressHandler sampleLibs defaultConfig (requestWith (partOf pngSignature) "")).outcome
        = .panicked (.wrapped "failed to decode image" (.errorString "unexpected EOF"))
      ∧ uploadImage sampleLibs defaultConfig .compress (requestWith (partOf pngSignature) "")
        = ⟨500, none⟩
      ∧ (compressHandler sampleLibs defaultConfig
          (requestWith (partOf (pngHeader 1 100)) "")).outcome
        = .panicked (.wrapped "failed to encode image"
            (.errorString "jpeg: image is too large to encode")) :=
  ⟨by decide,
   compressHandler_of_failed_transform sampleLibs defaultConfig
    (requestWith (partOf pngSignature) "") (partOf pngSignature)
    { ReadAll := .ok pngSignature } pngSignature 80 _
    rfl rfl (by decide) rfl (by decide) (by decide) (by decide), by decide,
   compressHandler_of_failed_transform sampleLibs defaultConfig
    (requestWith (partOf (pngHeader 1 100)) "") (partOf (pngHeader 1 100))
    { ReadAll := .ok (pngHeader 1 100) } (pngHeader 1 100) 80 _
    rfl rfl (by decide) rfl (by decide) (by decide) (by decide)⟩

/-! ## The transform -/

/-- C7, as amended: for a decodable image of positive width `w` and height `h`,
the image `imageProcessingToBuffer` hands to the JPEG encoder has width 800,
whatever `w` is, and height `800 * h / w` rounded to the nearest integer (half
up), at least 1. -/
theorem C7_encoded_width_is_800 (L : Libs) (buffer : List Nat) (quality : Int) (img : Image)
    (hdec : L.Decode buffer = .ok img) (hw : 0 < img.Dx) (hh : 0 < img.Dy) :
    imageProcessingToBuffer L buffer quality
        = (match L.Encode (Resize L img 800 0) { Quality := quality } with
           | .error err => .error (.wrapped "failed to encode image" err)
           | .ok buf => .ok buf)
      ∧ (Resize L img 800 0).Dx = 800
      ∧ (Resize L img 800 0).Dy = max 1 ((1600 * img.Dy + img.Dx) / (2 * img.Dx))
      ∧ 1600 * img.Dy - img.Dx < 2 * img.Dx * (Resize L img 800 0).Dy
      ∧ ((Resize L img 800 0).Dy = 1
          ∨ 2 * img.Dx * (Resize L img 800 0).Dy ≤ 1600 * img.Dy + img.Dx) := by
  have hR : Resize L img 800 0
      = ⟨800, max 1 ((1600 * img.Dy + img.Dx) / (2 * img.Dx)),
          L.resample img 800 (max 1 ((1600 * img.Dy + img.Dx) / (2 * img.Dx)))⟩ := by
    have h1 : ¬ (img.Dx ≤ 0 ∨ img.Dy ≤ 0) := by omega
    have h2 : 2 * (800 * img.Dy) + img.Dx = 1600 * img.Dy + img.Dx := by ring
    simp [Resize, h1, scaledSide, h2]
  have hpos : (0 : Int) < 2 * img.Dx := by omega
  have hdiv := Int.emod_add_ediv (1600 * img.Dy + img.Dx) (2 * img.Dx)
  have hnonneg := Int.emod_nonneg (1600 * img.Dy + img.Dx) (ne_of_gt hpos)
  have hlt := Int.emod_lt_of_pos (1600 * img.Dy + img.Dx) hpos
  refine ⟨?_, ?_, ?_, ?_, ?_⟩
  · simp only [imageProcessingToBuffer, hdec]
  · rw [hR]
  · rw [hR]
  · rw [hR]
    show 1600 * img.Dy - img.Dx < 2 * img.Dx * max 1 ((1600 * img.Dy + img.Dx) / (2 * img.Dx))
    have hle : (1600 * img.Dy + img.Dx) / (2 * img.Dx)
        ≤ max 1 ((1600 * img.Dy + img.Dx) / (2 * img.Dx)) := le_max_right _ _
    have := mul_le_mul_of_nonneg_left hle (le_of_lt hpos)
    linarith
  · rw [hR]
    show max 1 ((1600 * img.Dy + img.Dx) / (2 * img.Dx)) = 1
      ∨ 2 * img.Dx * max 1 ((1600 * img.Dy + img.Dx) / (2 * img.Dx)) ≤ 1600 * img.Dy + img.Dx
    rcases le_total ((1600 * img.Dy + img.Dx) / (2 * img.Dx)) 1 with h | h
    · left
      exact max_eq_left h
    · right
      rw [max_eq_right h]
      linarith

/-- C7 at a concrete image: a PNG header of 1600 by 1200 pixels is encoded at
800 by 600. -/
theorem C7_encoded_width_witness :
    (Resize sampleLibs ⟨1600, 1200, []⟩ 800 0).Dx = 800
      ∧ (Resize sampleLibs ⟨1600, 1200, []⟩ 800 0).Dy = 600 := by
  have h := C7_encoded_width_is_800 sampleLibs (pngHeader 1600 1200) 80 ⟨1600, 1200, []⟩
    (by decide) (by decide) (by decide)
  exact ⟨h.2.1, h.2.2.1.trans (by decide)⟩

/-- C7 fails as stated: a decodable image 400 pixels wide and 300 high is
encoded at width 800 and height 600, not at width `min 400 800 = 400`. -/
theorem C7_narrow_image_is_upscaled :
    sampleLibs.Decode (pngHeader 400 300) = .ok ⟨400, 300, []⟩
      ∧ imageProcessingToBuffer sampleLibs (pngHeader 400 300) 80
          = sampleLibs.Encode (Resize sampleLibs ⟨400, 300, []⟩ 800 0) { Quality := 80 }
      ∧ (Resize sampleLibs ⟨400, 300, []⟩ 800 0).Dx = 800
      ∧ (Resize sampleLibs ⟨400, 300, []⟩ 800 0).Dy = 600
      ∧ (Resize sampleLibs ⟨400, 300, []⟩ 800 0).Dx ≠ min 400 800 := by
  decide

/-! ## The quality handed to the encoder -/

/-- C8, as amended: when the request passes the file, size and type checks and
its `quality` field parses to an integer `q`, inside 1..100 or not, the handler
calls the transform with `q` itself and the transform calls the encoder with
`jpeg.Options{Quality: q}`; the handler neither rejects nor clamps `q`. -/
theorem C8_quality_passed_unchanged (L : Libs) (config : Config) (c : Context)
    (fileheader : FileHeader) (file : File) (buffer : List Nat) (q : Int) (img : Image)
    (hfile : c.FormFile "image" = .ok fileheader) (hopen : fileheader.Open = .ok file)
    (hsize : ¬ fileheader.Size > config.MaxFileSize) (hread : file.ReadAll = .ok buffer)
    (hmime : isAllowedMimeType (detectMimeType L buffer) config.AllowedMimeTypes = true)
    (hquality : c.FormValue "quality" ≠ "")
    (hparse : Atoi (c.FormValue "quality") = .ok q)
    (hdec : L.Decode buffer = .ok img) :
    requestQuality config c = .ok q
      ∧ imageProcessingToBuffer L buffer q
          = (match L.Encode (Resize L img 800 0) { Quality := q } with
             | .error err => .error (.wrapped "failed to encode image" err)
             | .ok buf => .ok buf)
      ∧ (compressHandler L config c).outcome
          = (match L.Encode (Resize L img 800 0) { Quality := q } with
             | .error err => .panicked (.wrapped "failed to encode image" err)
             | .ok buf =>
               .JSON 200 [("image", .str (EncodeToString buf)), ("extension", .str "jpeg")]) := by
  have hrq : requestQuality config c = .ok q := by simp [requestQuality, hquality, hparse]
  refine ⟨hrq, by simp only [imageProcessingToBuffer, hdec], ?_⟩
  rw [compressHandler_of_accepted L config c fileheader file buffer hfile hopen hsize hread hmime]
  simp only [hrq, imageProcessingToBuffer, hdec]
  cases L.Encode (Resize L img 800 0) { Quality := q } with
  | error err => rfl
  | ok buf => rfl

/-- C8 at a concrete request: the `quality` field "1000" reaches the transform
as 1000 and the request is answered with 200. -/
theorem C8_quality_passed_witness :
    requestQuality defaultConfig (requestWith (partOf (pngHeader 400 300)) "1000") = .ok 1000
      ∧ (compressHandler sampleLibs defaultConfig
          (requestWith (partOf (pngHeader 400 300)) "1000")).outcome
        = .JSON 200 [("image", .str "/9gAAAJYAAADIGT/2Q=="), ("extension", .str "jpeg")] := by
  have h := C8_quality_passed_unchanged sampleLibs defaultConfig
    (requestWith (partOf (pngHeader 400 300)) "1000") (partOf (pngHeader 400 300))
    { ReadAll := .ok (pngHeader 400 300) } (pngHeader 400 300) 1000 ⟨400, 300, []⟩
    rfl rfl (by decide) rfl (by decide) (by decide) (by decide) (by decide)
  exact ⟨h.1, h.2.2.trans (by decide)⟩

/-- C8 fails as stated: for the `quality` field "1000" the handler computes the
quality 1000, which is outside 1..100, does not reject the request, and an
encoder that writes out the `Quality` option it receives writes 1000
(the bytes 3 and 232). -/
theorem C8_quality_1000_reaches_encoder :
    requestQuality defaultConfig (requestWith (partOf (pngHeader 400 300)) "1000") = .ok 1000
      ∧ ¬ ((1 : Int) ≤ 1000 ∧ (1000 : Int) ≤ 100)
      ∧ imageProcessingToBuffer echoLibs (pngHeader 400 300) 1000 = .ok [3, 232]
      ∧ (compressHandler echoLibs defaultConfig
          (requestWith (partOf (pngHeader 400 300)) "1000")).outcome
        = .JSON 200 [("image", .str (EncodeToString [3, 232])), ("extension", .str "jpeg")] := by
  decide

/-! ## MIME filtering -/

/-- The first piece `strings.Split` answers is the longest prefix without the separator. -/
theorem Split_headD (s : List Char) (sep : Char) :
    (Split s sep).headD [] = s.takeWhile (fun c => c != sep) ∧ Split s sep ≠ [] := by
  induction s with
  | nil => simp [Split]
  | cons c cs ih =>
    by_cases h : c = sep
    · simp [Split, h]
    · cases hs : Split cs sep with
      | nil => exact absurd hs ih.2
      | cons p ps =>
        have ih1 := ih.1
        rw [hs] at ih1
        simp only [List.headD_cons] at ih1
        simp [Split, h, hs, ih1]

/-- Dropping a prefix that satisfies `p` throughout is done by `dropWhile`. -/
theorem dropWhile_append_of_all {p : Char → Bool} (l t : List Char)
    (hl : ∀ c ∈ l, p c = true) : (l ++ t).dropWhile p = t.dropWhile p := by
  induction l with
  | nil => rfl
  | cons a l ih =>
    have ha : p a = true := hl a (by simp)
    simp only [List.cons_append, List.dropWhile_cons, ha, if_true]
    exact ih (fun c hc => hl c (by simp [hc]))

/-- A list whose head does not satisfy `p` is left as it is by `dropWhile`. -/
theorem dropWhile_of_head {p : Char → Bool} (t : List Char)
    (ht : ∀ c, t.head? = some c → p c = false) : t.dropWhile p = t := by
  cases t with
  | nil => rfl
  | cons a t =>
    have ha : p a = false := ht a rfl
    simp [List.dropWhile_cons, ha]

/-- The head of what `dropWhile` leaves does not satisfy `p`. -/
theorem head_dropWhile {p : Char → Bool} (l : List Char) :
    ∀ c, (l.dropWhile p).head? = some c → p c = false := by
  induction l with
  | nil => intro c h; simp at h
  | cons a l ih =>
    intro c h
    by_cases ha : p a = true
    · simp only [List.dropWhile_cons, ha, if_true] at h
      exact ih c h
    · simp only [List.dropWhile_cons, ha] at h
      simp at h
      subst h
      simpa using ha

/-- The wording "leading and trailing white space removed" describes `TrimSpace`. -/
theorem isTrimmed_iff (u t : List Char) : IsTrimmed u t ↔ t = TrimSpace u := by
  constructor
  · rintro ⟨l, r, rfl, hl, hr, hhead, hlast⟩
    unfold TrimSpace
    rw [List.append_assoc, dropWhile_append_of_all l (t ++ r) hl]
    cases t with
    | nil =>
      have h0 : ([] ++ r).dropWhile isSpace = [] := by
        rw [List.nil_append, List.dropWhile_eq_nil_iff]
        exact hr
      rw [h0]
      rfl
    | cons a t =>
      rw [dropWhile_of_head (a :: t ++ r) (by intro c hc; exact hhead c (by simpa using hc))]
      rw [List.reverse_append]
      rw [dropWhile_append_of_all r.reverse (a :: t).reverse
        (by intro c hc; exact hr c (by simpa using hc))]
      rw [dropWhile_of_head (a :: t).reverse
        (by intro c hc; rw [List.head?_reverse] at hc; exact hlast c hc)]
      simp
  · rintro rfl
    refine ⟨u.takeWhile isSpace,
      (((u.dropWhile isSpace).reverse).takeWhile isSpace).reverse, ?_, ?_, ?_, ?_, ?_⟩
    · have h1 := List.takeWhile_append_dropWhile isSpace (u.dropWhile isSpace).reverse
      have h2 : (u.dropWhile isSpace)
          = ((u.dropWhile isSpace).reverse.dropWhile isSpace).reverse
            ++ ((u.dropWhile isSpace).reverse.takeWhile isSpace).reverse := by
        rw [← List.reverse_append, h1, List.reverse_reverse]
      unfold TrimSpace
      rw [List.append_assoc, ← h2, List.takeWhile_append_dropWhile]
    · intro c hc
      exact (List.mem_takeWhile_imp hc)
    · intro c hc
      rw [List.mem_reverse] at hc
      exact (List.mem_takeWhile_imp hc)
    · intro c hc
      have h2 : (u.dropWhile isSpace)
          = TrimSpace u ++ ((u.dropWhile isSpace).reverse.takeWhile isSpace).reverse := by
        have h1 := List.takeWhile_append_dropWhile isSpace (u.dropWhile isSpace).reverse
        unfold TrimSpace
        rw [← List.reverse_append, h1, List.reverse_reverse]
      apply head_dropWhile u c
      rw [h2]
      cases ht : TrimSpace u with
      | nil => rw [ht] at hc; simp at hc
      | cons a t => rw [ht] at hc; simpa using hc
    · intro c hc
      unfold TrimSpace at hc
      rw [List.getLast?_reverse] at hc
      exact head_dropWhile _ c hc

/-- The wording "the part before the first `;`" describes the longest prefix
without `;`. -/
theorem isPartBeforeSemicolon_iff (s p : List Char) :
    IsPartBeforeSemicolon s p ↔ p = s.takeWhile (fun c => c != ';') := by
  constructor
  · rintro ⟨hp, hs⟩
    have key : ∀ (q rest : List Char), ';' ∉ q →
        (q ++ rest).takeWhile (fun c => c != ';')
          = q ++ rest.takeWhile (fun c => c != ';') := by
      intro q rest hq
      induction q with
      | nil => rfl
      | cons a q ih =>
        have ha : a ≠ ';' := fun h => hq (by simp [h])
        have hq2 : ';' ∉ q := fun h => hq (by simp [h])
        simp [List.takeWhile_cons, ha, ih hq2]
    rcases hs with rfl | ⟨rest, rfl⟩
    · have := key s [] hp
      simpa using this.symm
    · rw [key p (';' :: rest) hp]
      simp [List.takeWhile_cons]
  · rintro rfl
    refine ⟨?_, ?_⟩
    · intro h
      have := List.mem_takeWhile_imp h
      simp at this
    · induction s with
      | nil => left; rfl
      | cons a s ih =>
        by_cases ha : a = ';'
        · right
          exact ⟨s, by simp [List.takeWhile_cons, ha]⟩
        · rcases ih with h | ⟨rest, h⟩
          · left
            simp only [List.takeWhile_cons, bne_iff_ne, ne_eq, ha, not_false_eq_true,
              decide_True, if_true]
            rw [← h]
          · right
            refine ⟨rest, ?_⟩
            simp only [List.takeWhile_cons, bne_iff_ne, ne_eq, ha, not_false_eq_true,
              decide_True, if_true]
            rw [List.cons_append, ← h]

/-- The loop over the allowed types is a membership test. -/
theorem allowedLoop_iff (normalizedType : String) (allowedTypes : List String) :
    allowedLoop normalizedType allowedTypes = true ↔ normalizedType ∈ allowedTypes := by
  induction allowedTypes with
  | nil => simp [allowedLoop]
  | cons a rest ih =>
    by_cases h : normalizedType = a
    · simp [allowedLoop, h]
    · simp [allowedLoop, h, ih]

/-- What `isAllowedMimeType` computes, in terms of list functions. -/
theorem isAllowedMimeType_eq (mimeType : String) (allowedTypes : List String) :
    isAllowedMimeType mimeType allowedTypes
      = allowedLoop (String.mk (TrimSpace (mimeType.data.takeWhile (fun c => c != ';'))))
          allowedTypes := by
  simp only [isAllowedMimeType, (Split_headD mimeType.data ';').1]

/-- C10: `isAllowedMimeType mimeType allowedTypes` is true exactly when the part
of `mimeType` before its first `;` (all of it when it has none), with leading and
trailing white space removed, is one of `allowedTypes` (equality of strings, so
case matters); what follows a `;` never changes the result; and the result is
false for an empty list. -/
theorem C10_isAllowedMimeType_spec (mimeType : String) (allowedTypes : List String) :
    (isAllowedMimeType mimeType allowedTypes = true
        ↔ ∃ p t, IsPartBeforeSemicolon mimeType.data p ∧ IsTrimmed p t
            ∧ String.mk t ∈ allowedTypes)
      ∧ (∀ params : String,
          isAllowedMimeType (mimeType ++ ";" ++ params) allowedTypes
            = isAllowedMimeType mimeType allowedTypes)
      ∧ isAllowedMimeType mimeType [] = false := by
  refine ⟨?_, ?_, ?_⟩
  · rw [isAllowedMimeType_eq, allowedLoop_iff]
    constructor
    · intro h
      exact ⟨_, _, (isPartBeforeSemicolon_iff _ _).2 rfl, (isTrimmed_iff _ _).2 rfl, h⟩
    · rintro ⟨p, t, hp, ht, hmem⟩
      rw [(isPartBeforeSemicolon_iff _ _).1 hp] at ht
      rw [(isTrimmed_iff _ _).1 ht] at hmem
      exact hmem
  · intro params
    rw [isAllowedMimeType_eq, isAllowedMimeType_eq]
    have key : ∀ (a b : List Char),
        (a ++ ';' :: b).takeWhile (fun c => c != ';') = a.takeWhile (fun c => c != ';') := by
      intro a b
      induction a with
      | nil => simp [List.takeWhile_cons]
      | cons x a ih =>
        by_cases hx : x = ';'
        · simp [List.takeWhile_cons, hx]
        · simp [List.takeWhile_cons, hx, ih]
    have hdata : (mimeType ++ ";" ++ params).data = mimeType.data ++ ';' :: params.data := by
      simp [String.data_append]
    rw [hdata, key]
  · rw [isAllowedMimeType_eq]
    rfl

/-- The filter on concrete strings: a parameter and surrounding blanks do not matter,
the case of the letters does. -/
theorem isAllowedMimeType_examples :
    isAllowedMimeType "image/png" defaultConfig.AllowedMimeTypes = true
      ∧ isAllowedMimeType " image/png ; charset=utf-8" defaultConfig.AllowedMimeTypes = true
      ∧ isAllowedMimeType "Image/PNG" defaultConfig.AllowedMimeTypes = false
      ∧ isAllowedMimeType "text/plain; charset=utf-8" defaultConfig.AllowedMimeTypes = false
      ∧ isAllowedMimeType "text/plain;image/png" defaultConfig.AllowedMimeTypes = false := by
  decide

/-! ## Configuration -/

/-- The digit value `ParseUint` gives a decimal digit. -/
theorem digitVal_of_digit (c : Char) (h : isDecimalDigit c = true) :
    digitVal c = some (c.toNat - 48) ∧ c.toNat - 48 < 10 := by
  simp only [isDecimalDigit, decide_eq_true_eq] at h
  have h0 : '0'.toNat = 48 := by decide
  have h9 : '9'.toNat = 57 := by decide
  refine ⟨?_, by omega⟩
  simp only [digitVal, h0, h9]
  rw [if_pos h]

/-- A byte that is no decimal digit has no digit value below ten. -/
theorem digitVal_of_not_digit (c : Char) (h : isDecimalDigit c = false) :
    digitVal c = none ∨ ∃ d, digitVal c = some d ∧ d ≥ 10 := by
  simp only [isDecimalDigit, decide_eq_false_iff_not] at h
  have h0 : '0'.toNat = 48 := by decide
  have h9 : '9'.toNat = 57 := by decide
  simp only [digitVal, h0, h9]
  rw [if_neg h]
  split
  · right; exact ⟨_, rfl, by omega⟩
  · split
    · right; exact ⟨_, rfl, by omega⟩
    · left; rfl

/-- Digits appended to a number do not make it smaller. -/
theorem le_decimalFrom (ds : List Char) (n : Nat) : n ≤ decimalFrom n ds := by
  induction ds generalizing n with
  | nil => exact le_refl n
  | cons c cs ih =>
    have h := ih (n * 10 + (c.toNat - 48))
    simp only [decimalFrom, List.foldl_cons] at h ⊢
    omega

/-- The loop of `ParseUint` answers a number exactly for a run of decimal
digits whose value, continued from the accumulator, fits in 64 bits. -/
theorem parseUintLoop_ok_iff (cs : List Char) (n v : Nat) (hn : n < 2 ^ 64) :
    parseUintLoop n cs = .ok v
      ↔ (∀ c ∈ cs, isDecimalDigit c = true) ∧ v = decimalFrom n cs ∧ v < 2 ^ 64 := by
  induction cs generalizing n with
  | nil =>
    simp only [parseUintLoop, decimalFrom, List.foldl_nil, List.not_mem_nil, false_implies,
      implies_true, true_and, Except.ok.injEq]
    constructor
    · rintro rfl; exact ⟨rfl, hn⟩
    · rintro ⟨h, _⟩; exact h.symm
  | cons c cs ih =>
    have hmax : maxUint64 = 18446744073709551615 := by norm_num [maxUint64]
    have hstep : decimalFrom n (c :: cs) = decimalFrom (n * 10 + (c.toNat - 48)) cs := rfl
    cases hd : isDecimalDigit c with
    | false =>
      have hno : ¬ (∀ x ∈ c :: cs, isDecimalDigit x = true) := by
        intro hall
        have := hall c (by simp)
        rw [hd] at this
        exact Bool.noConfusion this
      rcases digitVal_of_not_digit c hd with h | ⟨d, h, hge⟩
      · simp only [parseUintLoop, h]
        constructor
        · intro hx; exact Except.noConfusion hx
        · intro hx; exact absurd hx.1 hno
      · simp only [parseUintLoop, h, if_pos hge]
        constructor
        · intro hx; exact Except.noConfusion hx
        · intro hx; exact absurd hx.1 hno
    | true =>
      obtain ⟨hval, hlt⟩ := digitVal_of_digit c hd
      have hnot : ¬ (c.toNat - 48 ≥ 10) := by omega
      have hmono := le_decimalFrom cs (n * 10 + (c.toNat - 48))
      simp only [parseUintLoop, hval, if_neg hnot, hmax]
      by_cases hcut : n ≥ 18446744073709551615 / 10 + 1
      · rw [if_pos hcut]
        constructor
        · intro hx; exact Except.noConfusion hx
        · rintro ⟨_, hv, hv2⟩
          rw [hstep] at hv
          omega
      · rw [if_neg hcut]
        by_cases hwrap : n * 10 + (c.toNat - 48) < 2 ^ 64
        · have hmod : (n * 10 + (c.toNat - 48)) % 2 ^ 64 = n * 10 + (c.toNat - 48) :=
            Nat.mod_eq_of_lt hwrap
          have hok : ¬ ((n * 10 + (c.toNat - 48)) % 2 ^ 64 < n * 10
              ∨ (n * 10 + (c.toNat - 48)) % 2 ^ 64 > 18446744073709551615) := by
            rw [hmod]; omega
          rw [if_neg hok, hmod, ih _ hwrap, hstep]
          constructor
          · rintro ⟨h1, h2, h3⟩
            exact ⟨fun x hx => by
              rcases List.mem_cons.1 hx with rfl | hx
              · exact hd
              · exact h1 x hx, h2, h3⟩
          · rintro ⟨h1, h2, h3⟩
            exact ⟨fun x hx => h1 x (List.mem_cons_of_mem _ hx), h2, h3⟩
        · have hbad : (n * 10 + (c.toNat - 48)) % 2 ^ 64 < n * 10
              ∨ (n * 10 + (c.toNat - 48)) % 2 ^ 64 > 18446744073709551615 := by
            left; omega
          rw [if_pos hbad]
          constructor
          · intro hx; exact Except.noConfusion hx
          · rintro ⟨_, hv, hv2⟩
            rw [hstep] at hv
            omega

/-- `ParseUint` answers a number exactly for a non-empty run of decimal digits
whose value fits in 64 bits. -/
theorem ParseUint_ok_iff (ds : List Char) (v : Nat) :
    ParseUint ds = .ok v
      ↔ ds ≠ [] ∧ (∀ c ∈ ds, isDecimalDigit c = true) ∧ v = decimalFrom 0 ds ∧ v < 2 ^ 64 := by
  unfold ParseUint
  by_cases h : ds = []
  · simp [h]
  · rw [if_neg h, parseUintLoop_ok_iff ds 0 v (by norm_num)]
    simp [h]

/-- The result of `ParseInt` once `ParseUint` has answered `un` for the digits. -/
theorem parseIntKind_of_digits (c : Char) (cs : List Char) (un : Nat)
    (h : ParseUint (if c = '+' ∨ c = '-' then cs else c :: cs) = .ok un) :
    (c = '-' → parseIntKind (c :: cs)
        = if un > 2 ^ 63 then .error .outOfRange else .ok (-(un : Int)))
      ∧ (c ≠ '-' → parseIntKind (c :: cs)
        = if un ≥ 2 ^ 63 then .error .outOfRange else .ok (un : Int)) := by
  constructor
  · intro hc
    subst hc
    simp only [parseIntKind] at h ⊢
    rw [h]
    simp
  · intro hc
    simp only [parseIntKind, h]
    simp [hc]

/-- `ParseInt` fails when `ParseUint` fails on the digits. -/
theorem parseIntKind_of_no_digits (c : Char) (cs : List Char) (k : NumErrKind)
    (h : ParseUint (if c = '+' ∨ c = '-' then cs else c :: cs) = .error k) (n : Int) :
    parseIntKind (c :: cs) ≠ .ok n := by
  cases k <;> simp [parseIntKind, h]

/-- The body of `ParseInt` answers `n` exactly when the string is an optional
sign followed by decimal digits and denotes `n`, a number that fits in 64 bits. -/
theorem parseIntKind_ok_iff (s : List Char) (n : Int) :
    parseIntKind s = .ok n
      ↔ ∃ sign digits, s = sign ++ digits
          ∧ (sign = [] ∨ sign = ['+'] ∨ sign = ['-'])
          ∧ digits ≠ [] ∧ (∀ c ∈ digits, isDecimalDigit c = true)
          ∧ n = (if sign = ['-'] then -(decimalFrom 0 digits : Int)
                 else (decimalFrom 0 digits : Int))
          ∧ -(2 : Int) ^ 63 ≤ n ∧ n < (2 : Int) ^ 63 := by
  have hplus : isDecimalDigit '+' = false := by decide
  have hminus : isDecimalDigit '-' = false := by decide
  have hpm : ('+' : Char) ≠ '-' := by decide
  constructor
  · intro h
    cases s with
    | nil => simp [parseIntKind] at h
    | cons c cs =>
      cases hu : ParseUint (if c = '+' ∨ c = '-' then cs else c :: cs) with
      | error k => exact absurd h (parseIntKind_of_no_digits c cs k hu n)
      | ok un =>
        obtain ⟨hne, hall, hv, hlt⟩ := (ParseUint_ok_iff _ un).1 hu
        by_cases hm : c = '-'
        · rw [(parseIntKind_of_digits c cs un hu).1 hm] at h
          subst hm
          simp only [or_true, if_true] at hne hall hv
          by_cases hbig : un > 2 ^ 63
          · rw [if_pos hbig] at h
            exact Except.noConfusion h
          · rw [if_neg hbig] at h
            have h := Except.ok.inj h
            refine ⟨['-'], cs, rfl, Or.inr (Or.inr rfl), hne, hall, ?_, ?_, ?_⟩
            · simp only [if_true]
              rw [← h, hv]
            · rw [← h]; push_cast; omega
            · rw [← h]; push_cast; omega
        · rw [(parseIntKind_of_digits c cs un hu).2 hm] at h
          by_cases hbig : un ≥ 2 ^ 63
          · rw [if_pos hbig] at h
            exact Except.noConfusion h
          · rw [if_neg hbig] at h
            have h := Except.ok.inj h
            have hbig2 : un < 2 ^ 63 := by omega
            by_cases hp : c = '+'
            · subst hp
              simp only [true_or, if_true] at hne hall hv
              refine ⟨['+'], cs, rfl, Or.inr (Or.inl rfl), hne, hall, ?_, ?_, ?_⟩
              · have : ¬ (['+'] = ['-']) := by simp [hpm]
                rw [if_neg this, ← h, hv]
              · rw [← h]; push_cast; omega
              · rw [← h]; exact_mod_cast hbig2
            · have hnone : ¬ (c = '+' ∨ c = '-') := by tauto
              simp only [hnone, if_false] at hne hall hv
              refine ⟨[], c :: cs, rfl, Or.inl rfl, hne, hall, ?_, ?_, ?_⟩
              · have : ¬ (([] : List Char) = ['-']) := by simp
                rw [if_neg this, ← h, hv]
              · rw [← h]; push_cast; omega
              · rw [← h]; exact_mod_cast hbig2
  · rintro ⟨sign, digits, rfl, hsign, hne, hall, hn, hlo, hhi⟩
    cases digits with
    | nil => exact absurd rfl hne
    | cons d ds =>
      have hd : isDecimalDigit d = true := hall d (by simp)
      have hdp : d ≠ '+' := by rintro rfl; rw [hplus] at hd; exact Bool.noConfusion hd
      have hdm : d ≠ '-' := by rintro rfl; rw [hminus] at hd; exact Bool.noConfusion hd
      have hnn : (0 : Int) ≤ (decimalFrom 0 (d :: ds) : Int) := Int.natCast_nonneg _
      rcases hsign with rfl | rfl | rfl
      · have hnone : ¬ (d = '+' ∨ d = '-') := by tauto
        have hneg : ¬ (([] : List Char) = ['-']) := by simp
        rw [if_neg hneg] at hn
        have hlt : decimalFrom 0 (d :: ds) < 2 ^ 63 := by
          have : ((decimalFrom 0 (d :: ds) : Nat) : Int) < 2 ^ 63 := by rw [← hn]; exact hhi
          exact_mod_cast this
        have hu : ParseUint (if d = '+' ∨ d = '-' then ds else d :: ds)
            = .ok (decimalFrom 0 (d :: ds)) := by
          rw [if_neg hnone]
          exact (ParseUint_ok_iff _ _).2 ⟨hne, hall, rfl, by omega⟩
        have hbig : ¬ (decimalFrom 0 (d :: ds) ≥ 2 ^ 63) := by omega
        rw [List.nil_append, (parseIntKind_of_digits d ds _ hu).2 hdm, if_neg hbig, hn]
      · have hneg : ¬ (['+'] = ['-']) := by simp [hpm]
        rw [if_neg hneg] at hn
        have hlt : decimalFrom 0 (d :: ds) < 2 ^ 63 := by
          have : ((decimalFrom 0 (d :: ds) : Nat) : Int) < 2 ^ 63 := by rw [← hn]; exact hhi
          exact_mod_cast this
        have hu : ParseUint (if '+' = '+' ∨ '+' = '-' then d :: ds else '+' :: d :: ds)
            = .ok (decimalFrom 0 (d :: ds)) := by
          rw [if_pos (Or.inl rfl)]
          exact (ParseUint_ok_iff _ _).2 ⟨hne, hall, rfl, by omega⟩
        show parseIntKind ('+' :: d :: ds) = .ok n
        have hbig : ¬ (decimalFrom 0 (d :: ds) ≥ 2 ^ 63) := by omega
        rw [(parseIntKind_of_digits '+' (d :: ds) _ hu).2 hpm, if_neg hbig, hn]
      · rw [if_pos rfl] at hn
        have hle : decimalFrom 0 (d :: ds) ≤ 2 ^ 63 := by
          have : ((decimalFrom 0 (d :: ds) : Nat) : Int) ≤ 2 ^ 63 := by
            rw [hn] at hlo; linarith
          exact_mod_cast this
        have hu : ParseUint (if '-' = '+' ∨ '-' = '-' then d :: ds else '-' :: d :: ds)
            = .ok (decimalFrom 0 (d :: ds)) := by
          rw [if_pos (Or.inr rfl)]
          exact (ParseUint_ok_iff _ _).2 ⟨hne, hall, rfl, by omega⟩
        show parseIntKind ('-' :: d :: ds) = .ok n
        have hbig : ¬ (decimalFrom 0 (d :: ds) > 2 ^ 63) := by omega
        rw [(parseIntKind_of_digits '-' (d :: ds) _ hu).1 rfl, if_neg hbig, hn]

/-- `ParseInt` answers `n` exactly for a base-10 integer that fits in 64 bits
and denotes `n`. -/
theorem ParseInt_ok_iff (s : String) (n : Int) : ParseInt s = .ok n ↔ IsBase10Int64 s n := by
  unfold IsBase10Int64
  rw [← parseIntKind_ok_iff]
  unfold ParseInt
  cases parseIntKind s.data with
  | error k => simp
  | ok m => simp

/-- C9: in every environment in which `PORT`, `HOST`, `MAX_FILE_SIZE` and
`DEFAULT_QUALITY` are unset or empty, `loadConfig` answers the port "7070", the
host "0.0.0.0", the maximal file size 10*1024*1024 = 10485760 and the default
quality 80, and the allowed types are the five listed ones; and in every
environment `getEnvAsInt` answers the integer a base-10 64-bit integer denotes
and the default for a value that is no such integer. -/
theorem C9_loadConfig_defaults (getenv : String → String)
    (hport : getenv "PORT" = "") (hhost : getenv "HOST" = "")
    (hsize : getenv "MAX_FILE_SIZE" = "") (hquality : getenv "DEFAULT_QUALITY" = "") :
    (loadConfig getenv).Port = "7070"
      ∧ (loadConfig getenv).Host = "0.0.0.0"
      ∧ (loadConfig getenv).MaxFileSize = 10 * 1024 * 1024
      ∧ (loadConfig getenv).MaxFileSize = 10485760
      ∧ (loadConfig getenv).DefaultQuality = 80
      ∧ (loadConfig getenv).AllowedMimeTypes
          = ["image/jpeg", "image/png", "image/jpg", "image/webp", "image/gif"]
      ∧ (∀ (env : String → String) (key : String) (defaultVal n : Int),
          IsBase10Int64 (env key) n → getEnvAsInt env key defaultVal = n)
      ∧ (∀ (env : String → String) (key : String) (defaultVal : Int),
          (¬ ∃ n, IsBase10Int64 (env key) n) → getEnvAsInt env key defaultVal = defaultVal) := by
  refine ⟨?_, ?_, ?_, ?_, ?_, rfl, ?_, ?_⟩
  · simp [loadConfig, getEnv, hport]
  · simp [loadConfig, getEnv, hhost]
  · simp [loadConfig, getEnvAsInt, hsize]
  · simp [loadConfig, getEnvAsInt, hsize]
  · simp [loadConfig, getEnvAsInt, hquality]
  · intro env key defaultVal n hn
    have hparse : ParseInt (env key) = .ok n := (ParseInt_ok_iff _ _).2 hn
    have hne : env key ≠ "" := by
      intro h
      rw [h] at hparse
      have hempty : ParseInt "" = .error (.numError "ParseInt" "" .invalidSyntax) := by decide
      rw [hempty] at hparse
      exact Except.noConfusion hparse
    simp only [getEnvAsInt, hparse]
    rw [if_pos hne]
  · intro env key defaultVal hno
    cases hparse : ParseInt (env key) with
    | error e => simp [getEnvAsInt, hparse]
    | ok n => exact absurd ⟨n, (ParseInt_ok_iff _ _).1 hparse⟩ hno

/-- C9 in concrete environments: `PORT` and `DEFAULT_QUALITY` unset give the
defaults, and `DEFAULT_QUALITY` set to "-5", "abc" and "9223372036854775808"
gives -5, the default and the default. -/
theorem C9_loadConfig_witness :
    (loadConfig (fun _ => "")).Port = "7070"
      ∧ (loadConfig (fun _ => "")).MaxFileSize = 10485760
      ∧ (loadConfig (fun _ => "")).DefaultQuality = 80
      ∧ getEnvAsInt (fun _ => "-5") "DEFAULT_QUALITY" 80 = -5
      ∧ getEnvAsInt (fun _ => "abc") "DEFAULT_QUALITY" 80 = 80
      ∧ getEnvAsInt (fun _ => "9223372036854775808") "DEFAULT_QUALITY" 80 = 80 := by
  have h := C9_loadConfig_defaults (fun _ => "") rfl rfl rfl rfl
  exact ⟨h.1, h.2.2.2.1, h.2.2.2.2.1, by decide, by decide, by decide⟩

end ImgCompressor
